import Mathlib

/-!
Verification of the EDR query-resolution and coverage-assembly engine
(`src/api/observations.py`, `src/api/collection.py`).

Shallow embedding conventions:
* timestamps (`datetime.datetime`, timezone-aware) are modelled as `Int`
  (an epoch offset in microseconds); only comparison, subtraction and
  division by a duration are used by the code;
* coordinates and observation values (`float`) are modelled as `ℚ`;
  the code only compares, folds `min`/`max` and stores them;
* an observation value may be absent (JSON `null`), hence `Option ℚ`;
* the data accessors of `data/data.py` (`get_data`, `get_stations`,
  `get_variables`, ...) are external collaborators and enter as explicit
  function or list arguments;
* raised exceptions become `Except ApiError`.
-/

deriving instance DecidableEq for Except

namespace Edr

/-- Python's `<=` on strings: lexicographic comparison of the code
points. Stated on the character lists so that it is kernel-computable. -/
def str_le (a b : String) : Prop := a.data ≤ b.data

instance : DecidableRel str_le :=
  fun a b => inferInstanceAs (Decidable (a.data ≤ b.data))

/-- A weather station, as produced by the station catalog accessor:
WIGOS identifier, longitude and latitude. -/
structure Station where
  wsi : String
  longitude : ℚ
  latitude : ℚ
deriving DecidableEq, Repr

/-- A variable (parameter) descriptor: the fields the core reads. -/
structure Variable where
  id : String
deriving DecidableEq, Repr

/-- A time series as returned by `get_data(wsi, parameter)`:
(timestamp, value) pairs, the value possibly absent. -/
abbrev Series := List (Int × Option ℚ)

/-- `covjson_pydantic.ndarray.NdArrayFloat` as constructed by
`get_coverage_for_station`. -/
structure NdArrayFloat where
  axisNames : List String
  shape : List Nat
  values : List (Option ℚ)
deriving DecidableEq, Repr

/-- The parts of a `covjson_pydantic.coverage.Coverage` that
`get_coverage_for_station` fills in: the point-series domain axes,
the ranges (an ordered mapping parameter id → ndarray, in the iteration
order of the `parameters` dict) and the station code annotation. -/
structure Coverage where
  x_values : List ℚ
  y_values : List ℚ
  t_values : List Int
  ranges : List (String × NdArrayFloat)
  locationId : String
deriving DecidableEq, Repr

/-- Failure modes of the embedded code.

* `httpException status detail` — an explicit `raise HTTPException(...)`;
* `unknownParameters names` — the `HTTPException(400, f"The following
  parameters are not available: {unavailable_parameters}")` of
  `check_requested_parameters_exist`; the Python message interpolates a
  `set`, whose rendering order is unspecified, so the embedding carries
  the set itself as the payload;
* `indexError` — `list(parameters)[0]` on an empty dict;
* `emptySequenceError` — `min()`/`max()` applied to an empty list. -/
inductive ApiError where
  | httpException (status : Nat) (detail : String)
  | unknownParameters (names : Finset String)
  | indexError
  | emptySequenceError
deriving DecidableEq

/-- `src/api/observations.py`, `check_requested_parameters_exist`:
if the requested parameters are not a subset of the available ones,
raise listing the set difference requested minus available. -/
def check_requested_parameters_exist (requested all_parameters : List String) :
    Except ApiError Unit :=
  if ¬ (requested.toFinset ⊆ all_parameters.toFinset) then
    .error (.unknownParameters (requested.toFinset \ all_parameters.toFinset))
  else
    .ok ()

/-- The inclusive time-window filter `start_datetime <= t <= end_datetime`
applied throughout `get_coverage_for_station`. -/
def filter_window (start_datetime end_datetime : Int) (data : Series) : Series :=
  data.filter (fun tv => decide (start_datetime ≤ tv.1 ∧ tv.1 ≤ end_datetime))

/-- `src/api/observations.py`, `get_coverage_for_station`.
`get_data` is the time-series accessor `data.data.get_data`;
`parameters` is the key list of the `parameters` dict, in iteration
order. `list(parameters)[0]` on an empty dict raises `IndexError`. -/
def get_coverage_for_station (get_data : String → String → Series)
    (station : Station) (parameters : List String)
    (start_datetime end_datetime : Int) : Except ApiError Coverage :=
  match parameters with
  | [] => .error .indexError
  | p0 :: _ =>
    let data := get_data station.wsi p0
    let t_axis_values := (filter_window start_datetime end_datetime data).map Prod.fst
    if t_axis_values.length = 0 then
      .error (.httpException 400 "No data available")
    else
      let ranges := parameters.map (fun p =>
        let values :=
          (filter_window start_datetime end_datetime (get_data station.wsi p)).map Prod.snd
        (p, NdArrayFloat.mk ["t", "y", "x"] [values.length, 1, 1] values))
      .ok { x_values := [station.longitude]
            y_values := [station.latitude]
            t_values := t_axis_values
            ranges := ranges
            locationId := station.wsi }

/-- The error raised by `get_coverage_for_station` when the first
parameter has no data in the window (the spec's `NoDataInWindowError`). -/
def noDataInWindowError : ApiError := .httpException 400 "No data available"

/-- The error raised by `handle_datetime` when the interval is inverted
(the spec's `InvalidIntervalError`). -/
def invalidIntervalError : ApiError :=
  .httpException 400 "The start datetime must be before end datetime"

/-- `src/api/observations.py`, `handle_datetime`, after
`split_raw_interval_into_start_end_datetime` (an external parsing helper
from `api/util.py`) has produced the `(start, end)` pair: reject when
`end_datetime < start_datetime`, otherwise return the pair unchanged. -/
def handle_datetime (start_datetime end_datetime : Int) : Except ApiError (Int × Int) :=
  if end_datetime < start_datetime then
    .error invalidIntervalError
  else
    .ok (start_datetime, end_datetime)

/-- Python's `str.casefold` restricted to the ASCII identifiers used as
parameter ids, where it coincides with lowercasing each character. -/
def casefold (s : String) : String := ⟨s.data.map Char.toLower⟩

/-- The comparison `str.casefold(a) <= str.casefold(b)` used as sort key
relation in `get_data_location_id`. -/
def casefold_le (a b : String) : Prop := str_le (casefold a) (casefold b)

instance : DecidableRel casefold_le :=
  fun a b => inferInstanceAs (Decidable (str_le (casefold a) (casefold b)))

instance : IsTotal String casefold_le :=
  ⟨fun a b => le_total (casefold a).data (casefold b).data⟩

instance : IsTrans String casefold_le :=
  ⟨fun _ _ _ h1 h2 => le_trans (h1 : _ ≤ _) h2⟩

/-- `sorted(requested_parameters, key=str.casefold)` in
`get_data_location_id`. Python's `sorted` is the stable sort under the
case-folded keys; a stable sort is uniquely determined by its comparison
relation, so the structurally recursive insertion sort embeds it
exactly. -/
def sorted_by_casefold (requested : List String) : List String :=
  requested.insertionSort casefold_le

/-- Key list of a Python dict built by inserting keys in the given order:
the first occurrence of each key keeps its position. -/
def dict_key_order : List String → List String → List String
  | _, [] => []
  | seen, a :: l =>
    if a ∈ seen then dict_key_order seen l
    else a :: dict_key_order (a :: seen) l

/-- `src/api/observations.py`, `get_data_location_id`, the parameter
resolution part: the `parameters` dict starts with all variables of the
station (in accessor order); when `parameter-name` was given, check the
requested names exist and rebuild the dict with the requested keys in
case-folded alphabetical order. Returns the ordered key list of the
resulting dict. -/
def get_data_location_id_parameter_keys (available : List String)
    (parameter_name : Option (List String)) : Except ApiError (List String) :=
  match parameter_name with
  | none => .ok available
  | some requested => do
    let _ ← check_requested_parameters_exist requested available
    .ok (dict_key_order [] (sorted_by_casefold requested))

/-- Python's `min` over a list: raises `ValueError` on an empty sequence,
otherwise folds the binary minimum over the elements. -/
def py_min : List ℚ → Except ApiError ℚ
  | [] => .error .emptySequenceError
  | x :: xs => .ok (xs.foldl min x)

/-- Python's `max` over a list: raises `ValueError` on an empty sequence,
otherwise folds the binary maximum over the elements. -/
def py_max : List ℚ → Except ApiError ℚ
  | [] => .error .emptySequenceError
  | x :: xs => .ok (xs.foldl max x)

/-- `src/api/collection.py`, `get_spatial_extent`: map the stations to
their longitudes and latitudes and take `min`/`max` of each list,
returning `(left, bottom, right, top)`. `stations` is the catalog
accessor's `get_stations()` output. -/
def get_spatial_extent (stations : List Station) :
    Except ApiError (ℚ × ℚ × ℚ × ℚ) := do
  let longs := stations.map Station.longitude
  let lats := stations.map Station.latitude
  let left ← py_min longs
  let right ← py_max longs
  let bottom ← py_min lats
  let top ← py_max lats
  return (left, bottom, right, top)

/-- Python's `int()` applied to an exact rational: truncation toward
zero (`num.tdiv den` on the reduced fraction, the denominator being
positive). The embedding performs the timedelta quotient exactly in `ℚ`
where CPython computes a `float`. -/
def py_int (q : ℚ) : Int := q.num.tdiv q.den

/-- The repeat count of `src/api/collection.py`,
`get_collection_metadata`: `int((end - start) / duration_timedelta + 1)`
with timestamps and the duration in microseconds. -/
def compute_repeats (start_dt end_dt duration : Int) : Int :=
  py_int (((end_dt - start_dt : Int) : ℚ) / ((duration : Int) : ℚ) + 1)

/-- The comparison `a.id <= b.id` used as sort key relation in
`get_collection_metadata` (`sorted(get_variables(), key=lambda x: x.id)`). -/
def id_le (a b : Variable) : Prop := str_le a.id b.id

instance : DecidableRel id_le :=
  fun a b => inferInstanceAs (Decidable (str_le a.id b.id))

instance : IsTotal Variable id_le := ⟨fun a b => le_total a.id.data b.id.data⟩

instance : IsTrans Variable id_le := ⟨fun _ _ _ h1 h2 => le_trans (h1 : _ ≤ _) h2⟩

/-- The collection metadata fields with non-trivial logic. -/
structure CollectionMeta where
  bbox : ℚ × ℚ × ℚ × ℚ
  interval : Int × Int
  temporal_values : List String
  parameter_ids : List String
deriving DecidableEq, Repr

/-- `src/api/collection.py`, `get_collection_metadata`, the computed
parts. `start_dt, end_dt` model `get_temporal_extent()`,
`duration_str, duration` model `get_temporal_interval()`, `start_iso`
models `datetime_to_iso_string(start)` (an external formatting helper
from `api/util.py`), `vars` models `get_variables()`. The
`parameters` dict is built by inserting the variables sorted by id, so
its key order is that sorted order. -/
def get_collection_metadata (stations : List Station) (vars : List Variable)
    (start_dt end_dt : Int) (duration_str : String) (duration : Int)
    (start_iso : String) : Except ApiError CollectionMeta := do
  let (left, bottom, right, top) ← get_spatial_extent stations
  let repeats := compute_repeats start_dt end_dt duration
  let temporal_values := [s!"R{repeats}/{start_iso}/{duration_str}"]
  let sorted_vars := vars.insertionSort id_le
  let parameter_ids := dict_key_order [] (sorted_vars.map Variable.id)
  return { bbox := (left, bottom, right, top)
           interval := (start_dt, end_dt)
           temporal_values := temporal_values
           parameter_ids := parameter_ids }

/-! ### Helper lemmas -/

lemma foldl_min_le_mem (xs : List ℚ) (x : ℚ) : ∀ y ∈ x :: xs, xs.foldl min x ≤ y := by
  induction xs generalizing x with
  | nil => intro y hy; simp only [List.mem_singleton] at hy; simp [hy, List.foldl_nil]
  | cons a l ih =>
    intro y hy
    have hbase : l.foldl min (min x a) ≤ min x a := ih (min x a) (min x a) (List.mem_cons_self _ _)
    rcases List.mem_cons.mp hy with rfl | hy'
    · exact le_trans hbase (min_le_left _ _)
    · rcases List.mem_cons.mp hy' with rfl | hy''
      · exact le_trans hbase (min_le_right _ _)
      · exact ih (min x a) y (List.mem_cons_of_mem _ hy'')

lemma mem_le_foldl_max (xs : List ℚ) (x : ℚ) : ∀ y ∈ x :: xs, y ≤ xs.foldl max x := by
  induction xs generalizing x with
  | nil => intro y hy; simp only [List.mem_singleton] at hy; simp [hy, List.foldl_nil]
  | cons a l ih =>
    intro y hy
    have hbase : max x a ≤ l.foldl max (max x a) := ih (max x a) (max x a) (List.mem_cons_self _ _)
    rcases List.mem_cons.mp hy with rfl | hy'
    · exact le_trans (le_max_left _ _) hbase
    · rcases List.mem_cons.mp hy' with rfl | hy''
      · exact le_trans (le_max_right _ _) hbase
      · exact ih (max x a) y (List.mem_cons_of_mem _ hy'')

lemma py_int_eq_floor_of_nonneg (q : ℚ) (h : 0 ≤ q) : py_int q = ⌊q⌋ := by
  rw [py_int, Rat.floor_def]
  exact Int.tdiv_eq_ediv (Rat.num_nonneg.mpr h) (Int.ofNat_nonneg q.den)

lemma get_coverage_ok {get_data : String → String → Series} {station : Station}
    {p0 : String} {rest : List String} {s e : Int} {cov : Coverage}
    (h : get_coverage_for_station get_data station (p0 :: rest) s e = .ok cov) :
    cov = { x_values := [station.longitude]
            y_values := [station.latitude]
            t_values := (filter_window s e (get_data station.wsi p0)).map Prod.fst
            ranges := (p0 :: rest).map (fun p =>
              (p, { axisNames := ["t", "y", "x"]
                    shape := [((filter_window s e (get_data station.wsi p)).map Prod.snd).length,
                              1, 1]
                    values := (filter_window s e (get_data station.wsi p)).map Prod.snd }))
            locationId := station.wsi } := by
  simp only [get_coverage_for_station] at h
  split at h
  · exact absurd h (by simp)
  · exact (Except.ok.inj h).symm

lemma get_coverage_ok_t_nonempty {get_data : String → String → Series} {station : Station}
    {parameters : List String} {s e : Int} {cov : Coverage}
    (h : get_coverage_for_station get_data station parameters s e = .ok cov) :
    cov.t_values ≠ [] := by
  match parameters with
  | [] => exact absurd h (by simp [get_coverage_for_station])
  | p0 :: rest =>
    simp only [get_coverage_for_station] at h
    split at h
    · exact absurd h (by simp)
    · next hlen =>
      rw [← Except.ok.inj h]
      refine fun hnil => hlen ?_
      have hmap : List.map Prod.fst (filter_window s e (get_data station.wsi p0)) = [] := hnil
      rw [hmap]
      rfl

lemma filter_window_instant_of_strict_sorted {l : Series} {t : Int} {v : Option ℚ}
    (hs : (l.map Prod.fst).Pairwise (· < ·)) (hmem : (t, v) ∈ l) :
    filter_window t t l = [(t, v)] := by
  induction l with
  | nil => cases hmem
  | cons a tl ih =>
    simp only [List.map_cons, List.pairwise_cons] at hs
    obtain ⟨ha, htl⟩ := hs
    rcases List.mem_cons.mp hmem with heq | hmem'
    · subst heq
      have hall : filter_window t t tl = [] := by
        refine List.filter_eq_nil_iff.mpr (fun x hx => ?_)
        have hlt : t < x.1 := ha x.1 (List.mem_map_of_mem _ hx)
        simp only [decide_eq_true_eq, not_and]
        omega
      have hstep : filter_window t t ((t, v) :: tl) = (t, v) :: filter_window t t tl := by
        simp [filter_window, List.filter_cons]
      rw [hstep, hall]
    · have hat : a.1 < t := ha t (List.mem_map_of_mem _ hmem' : t ∈ tl.map Prod.fst)
      have hhead : (decide (t ≤ a.1 ∧ a.1 ≤ t)) = false := by
        simp only [decide_eq_false_iff_not, not_and]
        omega
      simp only [filter_window, List.filter_cons, hhead]
      exact ih htl hmem'

/-! ### Claims -/

/-- C4: when one or more requested parameter names are absent from the
available set, `check_requested_parameters_exist` fails with the
unknown-parameter error whose payload is exactly the set difference
requested minus available (every offending name, not just the first);
when the requested set is a subset of the available set, no error is
raised. -/
theorem C4_unknown_parameters_enumerated (requested available : List String) :
    (¬ requested.toFinset ⊆ available.toFinset →
      check_requested_parameters_exist requested available =
        .error (.unknownParameters (requested.toFinset \ available.toFinset)))
    ∧ (requested.toFinset ⊆ available.toFinset →
      check_requested_parameters_exist requested available = .ok ()) := by
  refine ⟨fun h => ?_, fun h => ?_⟩ <;>
    simp [check_requested_parameters_exist, h]

/-- Witness for C4, the spec's concrete scenario: available {FG, DDVEC},
requested [FG, UNKNOWN]; the failure lists exactly {UNKNOWN}. -/
theorem C4_witness :
    check_requested_parameters_exist ["FG", "UNKNOWN"] ["FG", "DDVEC"] =
      .error (.unknownParameters {"UNKNOWN"}) := by
  have h := (C4_unknown_parameters_enumerated ["FG", "UNKNOWN"] ["FG", "DDVEC"]).1 (by decide)
  rw [h]
  decide

/-- C9: `handle_datetime` rejects with the invalid-interval error exactly
when the parsed end timestamp is strictly before the parsed start
timestamp; whenever end >= start it returns the pair unchanged. -/
theorem C9_interval_validation (start_datetime end_datetime : Int) :
    (handle_datetime start_datetime end_datetime = .error invalidIntervalError ↔
      end_datetime < start_datetime)
    ∧ (start_datetime ≤ end_datetime →
      handle_datetime start_datetime end_datetime = .ok (start_datetime, end_datetime)) := by
  unfold handle_datetime
  by_cases h : end_datetime < start_datetime
  · rw [if_pos h]
    exact ⟨⟨fun _ => h, fun _ => rfl⟩, fun hle => absurd h (not_lt.mpr hle)⟩
  · rw [if_neg h]
    exact ⟨⟨fun heq => absurd heq (by simp), fun hlt => absurd hlt h⟩, fun _ => rfl⟩

/-- Witness for C9: the window 0..5 validates to itself, and the
inverted window 5..0 is rejected with the invalid-interval error. -/
theorem C9_witness :
    handle_datetime 0 5 = .ok (0, 5)
    ∧ handle_datetime 5 0 = .error invalidIntervalError :=
  ⟨(C9_interval_validation 0 5).2 (by decide),
   ((C9_interval_validation 5 0).1).mpr (by decide)⟩

/-- C7: with zero stations, the spatial-extent computation fails (the
`min()` of an empty sequence raises, the spec's `EmptyCatalogError`
condition) rather than returning a degenerate extent, and the failure
propagates through `get_collection_metadata`, preventing the service
from reporting a valid collection. -/
theorem C7_empty_catalog_error (vars : List Variable) (start_dt end_dt duration : Int)
    (duration_str start_iso : String) :
    get_spatial_extent [] = .error .emptySequenceError
    ∧ get_collection_metadata [] vars start_dt end_dt duration_str duration start_iso =
        .error .emptySequenceError :=
  ⟨rfl, rfl⟩

/-- C6: for every non-empty station catalog, `get_spatial_extent`
returns `(minLon, minLat, maxLon, maxLat)` as a fold of min/max over
the station coordinates, so every station lies inside the box and
min <= max on each axis. -/
theorem C6_spatial_extent_bounds (stations : List Station) (h : stations ≠ []) :
    ∃ left bottom right top,
      get_spatial_extent stations = .ok (left, bottom, right, top)
      ∧ (∀ st ∈ stations,
          left ≤ st.longitude ∧ st.longitude ≤ right ∧
          bottom ≤ st.latitude ∧ st.latitude ≤ top)
      ∧ left ≤ right ∧ bottom ≤ top := by
  match stations with
  | [] => exact absurd rfl h
  | s :: rest =>
    refine ⟨(rest.map Station.longitude).foldl min s.longitude,
            (rest.map Station.latitude).foldl min s.latitude,
            (rest.map Station.longitude).foldl max s.longitude,
            (rest.map Station.latitude).foldl max s.latitude, rfl, ?_, ?_, ?_⟩
    · intro st hst
      have hlon : st.longitude ∈ s.longitude :: rest.map Station.longitude := by
        rcases List.mem_cons.mp hst with rfl | hst'
        · exact List.mem_cons_self _ _
        · exact List.mem_cons_of_mem _ (List.mem_map_of_mem _ hst')
      have hlat : st.latitude ∈ s.latitude :: rest.map Station.latitude := by
        rcases List.mem_cons.mp hst with rfl | hst'
        · exact List.mem_cons_self _ _
        · exact List.mem_cons_of_mem _ (List.mem_map_of_mem _ hst')
      exact ⟨foldl_min_le_mem _ _ _ hlon, mem_le_foldl_max _ _ _ hlon,
             foldl_min_le_mem _ _ _ hlat, mem_le_foldl_max _ _ _ hlat⟩
    · exact le_trans (foldl_min_le_mem _ _ _ (List.mem_cons_self _ _))
        (mem_le_foldl_max _ _ _ (List.mem_cons_self _ _))
    · exact le_trans (foldl_min_le_mem _ _ _ (List.mem_cons_self _ _))
        (mem_le_foldl_max _ _ _ (List.mem_cons_self _ _))

/-- The two-station catalog of the spec's concrete scenario:
S1 at (5.0, 52.0) and S2 at (6.0, 52.1). -/
def exCatalogC6 : List Station :=
  [{ wsi := "S1", longitude := 5, latitude := 52 },
   { wsi := "S2", longitude := 6, latitude := ⟨521, 10, by decide, by decide⟩ }]

/-- Witness for C6: the scenario catalog yields exactly
(5.0, 52.0, 6.0, 52.1), and the containment bounds hold there. -/
theorem C6_witness :
    get_spatial_extent exCatalogC6 = .ok (5, 52, 6, ⟨521, 10, by decide, by decide⟩)
    ∧ ∃ left bottom right top,
        get_spatial_extent exCatalogC6 = .ok (left, bottom, right, top)
        ∧ (∀ st ∈ exCatalogC6,
            left ≤ st.longitude ∧ st.longitude ≤ right ∧
            bottom ≤ st.latitude ∧ st.latitude ≤ top)
        ∧ left ≤ right ∧ bottom ≤ top :=
  ⟨by decide, C6_spatial_extent_bounds exCatalogC6 (by decide)⟩

/-- C8: for a valid catalog-declared temporal extent (start <= end,
interval > 0), the repeat count computed by `get_collection_metadata`
equals `floor((end - start) / interval) + 1`, is at least 1, and the
metadata carries exactly one temporal value string of the bit-exact
shape `R{repeats}/{ISO start}/{duration}`. -/
theorem C8_repeat_count (start_dt end_dt duration : Int)
    (h1 : start_dt ≤ end_dt) (h2 : 0 < duration) :
    compute_repeats start_dt end_dt duration =
      ⌊((end_dt - start_dt : Int) : ℚ) / ((duration : Int) : ℚ)⌋ + 1
    ∧ 1 ≤ compute_repeats start_dt end_dt duration
    ∧ ∀ stations vars duration_str start_iso meta,
        get_collection_metadata stations vars start_dt end_dt duration_str duration start_iso
          = .ok meta →
        meta.temporal_values =
          ["R" ++ toString (compute_repeats start_dt end_dt duration) ++ "/"
            ++ start_iso ++ "/" ++ duration_str] := by
  have hq : (0 : ℚ) ≤ ((end_dt - start_dt : Int) : ℚ) / ((duration : Int) : ℚ) := by
    apply div_nonneg
    · exact_mod_cast Int.sub_nonneg.mpr h1
    · exact_mod_cast le_of_lt h2
  have hfloor : compute_repeats start_dt end_dt duration =
      ⌊((end_dt - start_dt : Int) : ℚ) / ((duration : Int) : ℚ)⌋ + 1 := by
    rw [compute_repeats, py_int_eq_floor_of_nonneg _ (by linarith), Int.floor_add_one]
  refine ⟨hfloor, ?_, ?_⟩
  · rw [hfloor]
    have := Int.floor_nonneg.mpr hq
    omega
  · intro stations vars duration_str start_iso meta hmeta
    unfold get_collection_metadata at hmeta
    cases hsp : get_spatial_extent stations with
    | error e => rw [hsp] at hmeta; exact absurd hmeta (by simp [Bind.bind, Except.bind])
    | ok v =>
      rw [hsp] at hmeta
      obtain ⟨l, b, r, t⟩ := v
      simp only [Bind.bind, Except.bind, pure, Except.pure, Except.ok.injEq] at hmeta
      rw [← hmeta]
      show [toString "R" ++ toString (compute_repeats start_dt end_dt duration) ++ toString "/"
          ++ toString start_iso ++ toString "/" ++ toString duration_str ++ toString ""] = _
      simp [String.append_assoc, String.append_empty, toString]

/-- Witness for C8, the spec's concrete scenario in units of the
interval: start 2024-02-22T00:00Z is 0, end 2024-02-27T00:00Z is 5 days
later, the interval is 1 day, and the repeat count is 6. -/
theorem C8_witness :
    compute_repeats 0 5 1 = 6
    ∧ 1 ≤ compute_repeats 0 5 1
    ∧ ∀ stations vars duration_str start_iso meta,
        get_collection_metadata stations vars 0 5 duration_str 1 start_iso = .ok meta →
        meta.temporal_values =
          ["R" ++ toString (compute_repeats 0 5 1) ++ "/" ++ start_iso ++ "/" ++ duration_str] := by
  have h := C8_repeat_count 0 5 1 (by decide) (by decide)
  refine ⟨?_, h.2.1, h.2.2⟩
  rw [h.1]
  norm_num

/-- C1: time-window filtering in coverage assembly is inclusive on both
bounds: a point of any parameter's series passes the filter exactly when
`start <= t <= end`, the time axis contains a timestamp exactly when the
anchor (first) parameter has a point at it inside the window, and every
parameter's range holds exactly the values of its inclusively filtered
points. -/
theorem C1_inclusive_time_window (get_data : String → String → Series)
    (station : Station) (p0 : String) (rest : List String)
    (start_datetime end_datetime : Int) (cov : Coverage)
    (h : get_coverage_for_station get_data station (p0 :: rest) start_datetime end_datetime
        = .ok cov) :
    (∀ t, t ∈ cov.t_values ↔
      ∃ v, (t, v) ∈ get_data station.wsi p0 ∧ start_datetime ≤ t ∧ t ≤ end_datetime)
    ∧ (∀ p t v,
        (t, v) ∈ filter_window start_datetime end_datetime (get_data station.wsi p) ↔
        ((t, v) ∈ get_data station.wsi p ∧ start_datetime ≤ t ∧ t ≤ end_datetime))
    ∧ cov.ranges = (p0 :: rest).map (fun p =>
        (p, { axisNames := ["t", "y", "x"]
              shape := [((filter_window start_datetime end_datetime
                  (get_data station.wsi p)).map Prod.snd).length, 1, 1]
              values := (filter_window start_datetime end_datetime
                  (get_data station.wsi p)).map Prod.snd })) := by
  have hcov := get_coverage_ok h
  subst hcov
  refine ⟨fun t => ?_, fun p t v => ?_, rfl⟩
  · show t ∈ (filter_window _ _ _).map Prod.fst ↔ _
    simp only [filter_window, List.mem_map, List.mem_filter, decide_eq_true_eq]
    constructor
    · rintro ⟨⟨t', v⟩, ⟨hmem, hlo, hhi⟩, rfl⟩
      exact ⟨v, hmem, hlo, hhi⟩
    · rintro ⟨v, hmem, hlo, hhi⟩
      exact ⟨(t, v), ⟨hmem, hlo, hhi⟩, rfl⟩
  · simp [filter_window, List.mem_filter, decide_eq_true_eq, and_assoc]

/-- The series of the spec's C1 scenario: station S1, parameter FG, with
points at 00:00, 06:00, 12:00 and 18:00 (hours as integer timestamps). -/
def exGetDataC1 : String → String → Series := fun _ p =>
  if p = "FG" then [(0, some 1), (6, some 2), (12, some 3), (18, some 4)] else []

/-- The coverage assembled in the C1 scenario for the window 0..12:
exactly the three points 00:00, 06:00, 12:00. -/
def exCoverageC1 : Coverage :=
  { x_values := [5], y_values := [52], t_values := [0, 6, 12],
    ranges := [("FG", { axisNames := ["t", "y", "x"], shape := [3, 1, 1],
                        values := [some 1, some 2, some 3] })],
    locationId := "S1" }

/-- Witness for C1, the spec's concrete scenario: points at 00:00,
06:00, 12:00, 18:00 with window 00:00-12:00 yield exactly the three
points 00:00, 06:00 and 12:00, and membership in the axis is exactly
in-window membership in the series. -/
theorem C1_witness :
    get_coverage_for_station exGetDataC1 { wsi := "S1", longitude := 5, latitude := 52 }
        ["FG"] 0 12 = .ok exCoverageC1
    ∧ exCoverageC1.t_values = [0, 6, 12]
    ∧ ∀ t, t ∈ exCoverageC1.t_values ↔
        ∃ v, (t, v) ∈ exGetDataC1 "S1" "FG" ∧ 0 ≤ t ∧ t ≤ 12 :=
  ⟨by decide, by decide,
   (C1_inclusive_time_window exGetDataC1 { wsi := "S1", longitude := 5, latitude := 52 }
      "FG" [] 0 12 exCoverageC1 (by decide)).1⟩

/-- C2: the first requested parameter's filtered timestamps are the
coverage's time axis, an empty filtered axis always fails with the
no-data error, and a successful coverage never has an empty time axis,
for every station, parameter list and window. -/
theorem C2_empty_axis_always_fails (get_data : String → String → Series)
    (station : Station) (start_datetime end_datetime : Int) :
    (∀ p0 rest,
      filter_window start_datetime end_datetime (get_data station.wsi p0) = [] →
      get_coverage_for_station get_data station (p0 :: rest) start_datetime end_datetime
        = .error noDataInWindowError)
    ∧ (∀ p0 rest cov,
      get_coverage_for_station get_data station (p0 :: rest) start_datetime end_datetime
        = .ok cov →
      cov.t_values =
        (filter_window start_datetime end_datetime (get_data station.wsi p0)).map Prod.fst)
    ∧ ∀ parameters cov,
        get_coverage_for_station get_data station parameters start_datetime end_datetime
          = .ok cov →
        cov.t_values ≠ [] := by
  refine ⟨fun p0 rest hempty => ?_, fun p0 rest cov h => ?_, fun parameters cov h => ?_⟩
  · simp only [get_coverage_for_station, noDataInWindowError, hempty]
    rfl
  · rw [get_coverage_ok h]
  · exact get_coverage_ok_t_nonempty h

/-- Witness for C2: a series whose only point (18:00) lies outside the
window 0..12 makes assembly fail with the no-data error, and the
successful C1-style assembly has a non-empty axis. -/
theorem C2_witness :
    get_coverage_for_station (fun _ _ => [(18, some 4)])
        { wsi := "S1", longitude := 5, latitude := 52 } ["FG"] 0 12
      = .error noDataInWindowError :=
  (C2_empty_axis_always_fails (fun _ _ => [(18, some 4)])
    { wsi := "S1", longitude := 5, latitude := 52 } 0 12).1 "FG" [] (by decide)

/-- The two-parameter accessor refuting C3: P1 has one point in the
window 0..1, P2 has two. -/
def cexGetDataC3 : String → String → Series := fun _ p =>
  if p = "P2" then [(0, some 1), (1, some 2)] else [(0, some 1)]

/-- Counterexample to C3 as stated: with P1 anchoring the time axis
(one in-window point) and P2 holding two in-window points, assembly
succeeds with a time axis of length 1 while P2's range has length 2, so
not every range length equals the time-axis length. -/
theorem C3_counterexample :
    (get_coverage_for_station cexGetDataC3 { wsi := "S1", longitude := 5, latitude := 52 }
        ["P1", "P2"] 0 1).map
      (fun cov => (cov.t_values.length, cov.ranges.map (fun pr => (pr.1, pr.2.values.length))))
      = .ok (1, [("P1", 1), ("P2", 2)]) := by decide

/-- C3 (amended): when every requested parameter's series has the same
in-window timestamps as the first parameter's — the uniform-sampling
assumption the code documents — every range array's length equals the
time-axis length and every parameter's filtered timestamps coincide
with the shared time axis. -/
theorem C3_ranges_aligned_when_uniform (get_data : String → String → Series)
    (station : Station) (p0 : String) (rest : List String)
    (start_datetime end_datetime : Int) (cov : Coverage)
    (h : get_coverage_for_station get_data station (p0 :: rest) start_datetime end_datetime
        = .ok cov)
    (huniform : ∀ p ∈ p0 :: rest,
      (filter_window start_datetime end_datetime (get_data station.wsi p)).map Prod.fst
        = (filter_window start_datetime end_datetime (get_data station.wsi p0)).map Prod.fst) :
    (∀ pr ∈ cov.ranges, pr.2.values.length = cov.t_values.length)
    ∧ ∀ pr ∈ cov.ranges,
        (filter_window start_datetime end_datetime (get_data station.wsi pr.1)).map Prod.fst
          = cov.t_values := by
  have hcov := get_coverage_ok h
  subst hcov
  constructor
  · intro pr hpr
    simp only [List.mem_map] at hpr
    obtain ⟨p, hp, rfl⟩ := hpr
    show ((filter_window _ _ _).map Prod.snd).length = ((filter_window _ _ _).map Prod.fst).length
    rw [List.length_map, List.length_map, ← List.length_map _ Prod.fst,
        huniform p hp, List.length_map]
  · intro pr hpr
    simp only [List.mem_map] at hpr
    obtain ⟨p, hp, rfl⟩ := hpr
    exact huniform p hp

/-- Witness for C3 (amended): both parameters sampled at 0 and 6 inside
the window 0..12; each range length equals the axis length 2. -/
theorem C3_witness :
    (∀ pr ∈ (Coverage.mk [5] [52] [0, 6]
        [("P1", ⟨["t", "y", "x"], [2, 1, 1], [some 1, some 2]⟩),
         ("P2", ⟨["t", "y", "x"], [2, 1, 1], [some 5, some 7]⟩)] "S1").ranges,
      pr.2.values.length = (Coverage.mk [5] [52] [0, 6]
        [("P1", ⟨["t", "y", "x"], [2, 1, 1], [some 1, some 2]⟩),
         ("P2", ⟨["t", "y", "x"], [2, 1, 1], [some 5, some 7]⟩)] "S1").t_values.length)
    ∧ ∀ pr ∈ (Coverage.mk [5] [52] [0, 6]
        [("P1", ⟨["t", "y", "x"], [2, 1, 1], [some 1, some 2]⟩),
         ("P2", ⟨["t", "y", "x"], [2, 1, 1], [some 5, some 7]⟩)] "S1").ranges,
        (filter_window 0 12 ((fun _ p =>
            if p = "P2" then [(0, some 5), (6, some 7)]
            else [(0, some 1), (6, some 2)] : String → String → Series) "S1" pr.1)).map Prod.fst
          = (Coverage.mk [5] [52] [0, 6]
        [("P1", ⟨["t", "y", "x"], [2, 1, 1], [some 1, some 2]⟩),
         ("P2", ⟨["t", "y", "x"], [2, 1, 1], [some 5, some 7]⟩)] "S1").t_values :=
  C3_ranges_aligned_when_uniform
    (fun _ p => if p = "P2" then [(0, some 5), (6, some 7)] else [(0, some 1), (6, some 2)])
    { wsi := "S1", longitude := 5, latitude := 52 } "P1" ["P2"] 0 12 _
    (by decide) (by decide)

/-- C10: a single-instant window (end = start) passes interval
validation, and when the anchor parameter's series — with its strictly
increasing timestamps — has a point exactly at that instant, assembly
succeeds with the one-element time axis `[t]` instead of an error. -/
theorem C10_single_instant_window (get_data : String → String → Series)
    (station : Station) (p0 : String) (rest : List String) (t : Int) (v : Option ℚ)
    (hsorted : ((get_data station.wsi p0).map Prod.fst).Pairwise (· < ·))
    (hmem : (t, v) ∈ get_data station.wsi p0) :
    handle_datetime t t = .ok (t, t)
    ∧ ∃ cov, get_coverage_for_station get_data station (p0 :: rest) t t = .ok cov
        ∧ cov.t_values = [t] := by
  have hfw := filter_window_instant_of_strict_sorted hsorted hmem
  constructor
  · unfold handle_datetime
    rw [if_neg (lt_irrefl t)]
  · simp only [get_coverage_for_station, hfw]
    norm_num

/-- Witness for C10: a strictly increasing two-point series with a point
at 6; the degenerate window 6..6 validates and yields the one-element
axis [6]. -/
theorem C10_witness :
    handle_datetime 6 6 = .ok (6, 6)
    ∧ ∃ cov, get_coverage_for_station (fun _ _ => [(0, some 1), (6, some 2)])
        { wsi := "S1", longitude := 5, latitude := 52 } ["FG"] 6 6 = .ok cov
        ∧ cov.t_values = [6] :=
  C10_single_instant_window (fun _ _ => [(0, some 1), (6, some 2)])
    { wsi := "S1", longitude := 5, latitude := 52 } "FG" [] 6 (some 2)
    (by decide) (by decide)

lemma dict_key_order_sublist : ∀ (seen l : List String), List.Sublist (dict_key_order seen l) l := by
  intro seen l
  induction l generalizing seen with
  | nil => exact List.Sublist.refl []
  | cons a tl ih =>
    rw [dict_key_order]
    split
    · exact (ih seen).trans (List.sublist_cons_self a tl)
    · exact (ih (a :: seen)).cons₂ a

lemma mem_dict_key_order : ∀ (seen l : List String) (x : String),
    x ∈ dict_key_order seen l ↔ x ∈ l ∧ x ∉ seen := by
  intro seen l
  induction l generalizing seen with
  | nil => intro x; simp [dict_key_order]
  | cons a tl ih =>
    intro x
    rw [dict_key_order]
    split
    · next hmem =>
      rw [ih seen x, List.mem_cons]
      constructor
      · exact fun ⟨h1, h2⟩ => ⟨Or.inr h1, h2⟩
      · rintro ⟨rfl | h1, h2⟩
        · exact absurd hmem h2
        · exact ⟨h1, h2⟩
    · next hmem =>
      rw [List.mem_cons, List.mem_cons, ih (a :: seen) x]
      constructor
      · rintro (rfl | ⟨h1, h2⟩)
        · exact ⟨Or.inl rfl, hmem⟩
        · exact ⟨Or.inr h1, fun hx => h2 (List.mem_cons_of_mem a hx)⟩
      · rintro ⟨rfl | h1, h2⟩
        · exact Or.inl rfl
        · rcases eq_or_ne x a with rfl | hne
          · exact Or.inl rfl
          · exact Or.inr ⟨h1, fun hx => by
              rcases List.mem_cons.mp hx with h | h
              · exact hne h
              · exact h2 h⟩

lemma get_keys_ok {available requested keys : List String}
    (h : get_data_location_id_parameter_keys available (some requested) = .ok keys) :
    keys = dict_key_order [] (sorted_by_casefold requested) := by
  simp only [get_data_location_id_parameter_keys, check_requested_parameters_exist,
    Bind.bind, Except.bind] at h
  split at h
  · simp at h
  · exact (Except.ok.inj h).symm

lemma get_collection_metadata_parameter_ids {stations : List Station} {vars : List Variable}
    {start_dt end_dt duration : Int} {duration_str start_iso : String} {meta : CollectionMeta}
    (h : get_collection_metadata stations vars start_dt end_dt duration_str duration start_iso
        = .ok meta) :
    meta.parameter_ids = dict_key_order [] ((vars.insertionSort id_le).map Variable.id) := by
  unfold get_collection_metadata at h
  cases hsp : get_spatial_extent stations with
  | error e => rw [hsp] at h; exact absurd h (by simp [Bind.bind, Except.bind])
  | ok v =>
    rw [hsp] at h
    obtain ⟨l, b, r, t⟩ := v
    simp only [Bind.bind, Except.bind, pure, Except.pure, Except.ok.injEq] at h
    rw [← h]

/-- Two lists that are permutations of each other, both nondecreasing
under an injective key into a linear order, are equal. This is the
determinism of a stable sort's output under reordered input. -/
lemma eq_of_perm_of_pairwise_key {α β : Type} [LinearOrder β] (key : α → β) :
    ∀ l1 l2 : List α, l1.Perm l2 →
      l1.Pairwise (fun a b => key a ≤ key b) →
      l2.Pairwise (fun a b => key a ≤ key b) →
      (l1.map key).Nodup → l1 = l2 := by
  intro l1
  induction l1 with
  | nil =>
    intro l2 hp _ _ _
    have := hp.length_eq
    simp only [List.length_nil] at this
    exact (List.length_eq_zero.mp this.symm).symm
  | cons a t1 ih =>
    intro l2 hp hs1 hs2 hnd
    cases l2 with
    | nil => exact absurd hp.length_eq (by simp)
    | cons b t2 =>
      obtain ⟨ha1, hs1'⟩ := List.pairwise_cons.mp hs1
      obtain ⟨hb2, hs2'⟩ := List.pairwise_cons.mp hs2
      simp only [List.map_cons, List.nodup_cons] at hnd
      obtain ⟨hka, hnd'⟩ := hnd
      have hab : a = b := by
        have hbmem : b ∈ a :: t1 := hp.mem_iff.mpr (List.mem_cons_self b t2)
        have hamem : a ∈ b :: t2 := hp.mem_iff.mp (List.mem_cons_self a t1)
        rcases List.mem_cons.mp hbmem with heq | hbt1
        · exact heq.symm
        · rcases List.mem_cons.mp hamem with heq | hat2
          · exact heq
          · have hk : key a = key b := le_antisymm (ha1 b hbt1) (hb2 a hat2)
            exact absurd (hk ▸ List.mem_map_of_mem key hbt1) hka
      subst hab
      rw [ih t2 hp.cons_inv hs1' hs2' hnd']

/-- C5: response parameter ordering is deterministic. Without an explicit
request, collection metadata returns the full variable set with ids in
nondecreasing id order (and exactly the available ids). With an explicit
request, `get_data_location_id` returns the parameters in case-folded
alphabetical order, and two requests that are permutations of each other
(with pairwise distinct case-folded names) resolve to identical key
sequences, so ordering is independent of request-string order. -/
theorem C5_deterministic_parameter_ordering :
    (∀ stations vars start_dt end_dt duration_str duration start_iso meta,
      get_collection_metadata stations vars start_dt end_dt duration_str duration start_iso
        = .ok meta →
      meta.parameter_ids.Pairwise str_le
      ∧ ∀ i, i ∈ meta.parameter_ids ↔ i ∈ vars.map Variable.id)
    ∧ (∀ available requested keys,
      get_data_location_id_parameter_keys available (some requested) = .ok keys →
      keys.Pairwise casefold_le)
    ∧ ∀ available r1 r2 keys1 keys2,
        r1.Perm r2 → (r1.map casefold).Nodup →
        get_data_location_id_parameter_keys available (some r1) = .ok keys1 →
        get_data_location_id_parameter_keys available (some r2) = .ok keys2 →
        keys1 = keys2 := by
  have hdata_inj : Function.Injective String.data := by
    intro x y hxy
    cases x
    cases y
    exact congrArg String.mk hxy
  refine ⟨?_, ?_, ?_⟩
  · intro stations vars start_dt end_dt duration_str duration start_iso meta h
    rw [get_collection_metadata_parameter_ids h]
    constructor
    · have hsorted : (vars.insertionSort id_le).Pairwise id_le :=
        List.sorted_insertionSort id_le vars
      have hmap : ((vars.insertionSort id_le).map Variable.id).Pairwise str_le :=
        (List.pairwise_map).mpr hsorted
      exact hmap.sublist (dict_key_order_sublist _ _)
    · intro i
      rw [mem_dict_key_order]
      simp only [List.not_mem_nil, not_false_iff, and_true, List.mem_map]
      constructor
      · rintro ⟨var, hvar, rfl⟩
        exact ⟨var, (List.perm_insertionSort id_le vars).mem_iff.mp hvar, rfl⟩
      · rintro ⟨var, hvar, rfl⟩
        exact ⟨var, (List.perm_insertionSort id_le vars).mem_iff.mpr hvar, rfl⟩
  · intro available requested keys h
    rw [get_keys_ok h]
    exact (List.sorted_insertionSort casefold_le requested).sublist (dict_key_order_sublist _ _)
  · intro available r1 r2 keys1 keys2 hperm hnodup h1 h2
    rw [get_keys_ok h1, get_keys_ok h2]
    have hkey_nodup : (r1.map (fun s => (casefold s).data)).Nodup := by
      have := hnodup.map hdata_inj
      rwa [List.map_map] at this
    have hsorted_eq : sorted_by_casefold r1 = sorted_by_casefold r2 := by
      apply eq_of_perm_of_pairwise_key (fun s => (casefold s).data)
      · exact ((List.perm_insertionSort casefold_le r1).trans hperm).trans
          (List.perm_insertionSort casefold_le r2).symm
      · exact List.sorted_insertionSort casefold_le r1
      · exact List.sorted_insertionSort casefold_le r2
      · exact ((List.perm_insertionSort casefold_le r1).map _).nodup_iff.mpr hkey_nodup
    rw [hsorted_eq]

/-- Witness for C5: the request [FF, dd] against available {dd, FF}
resolves to [dd, FF] (case-folded alphabetical, not request order), that
key sequence is casefold-sorted, and the permuted request [dd, FF]
resolves to the identical key sequence. -/
theorem C5_witness :
    get_data_location_id_parameter_keys ["dd", "FF"] (some ["FF", "dd"]) = .ok ["dd", "FF"]
    ∧ List.Pairwise casefold_le ["dd", "FF"]
    ∧ (["dd", "FF"] : List String) = ["dd", "FF"] :=
  ⟨by decide,
   C5_deterministic_parameter_ordering.2.1 ["dd", "FF"] ["FF", "dd"] ["dd", "FF"] (by decide),
   C5_deterministic_parameter_ordering.2.2 ["dd", "FF"] ["FF", "dd"] ["dd", "FF"]
     ["dd", "FF"] ["dd", "FF"] (by decide) (by decide) (by decide) (by decide)⟩

end Edr
